import Mathlib

/-!
# Wizard_Battle: camera tracking and directional sprite selection

A shallow embedding of `src/src/fonctions.c`: the functions
`getMousePositionDirection`, `actualisationSprite`, `action` and
`updateCamera`, followed by theorems about them.

Conventions of the embedding.

* A C `int` is a mathematical integer (`Int`).  Signed overflow is undefined
  behaviour in C, so the embedding describes the executions in which every
  intermediate value fits its type.
* C integer division and remainder truncate toward zero: `Int.tdiv`, `Int.tmod`.
* The header `fonctions.h` is not in the source tree; the object-like macros it
  defines are the fields of `Consts`.
* `float` is IEEE-754 binary32 evaluated in single precision, rounding to nearest,
  ties to even.  Only three operations occur (`int` to `float`, one product by the
  constant `0.1f`, `float` to `int`), and they are modelled exactly on integers.
* Calls into SDL are inputs (`SDL_GetMouseState`) or outputs (`SDL_RenderCopy`) of
  the embedded functions.
-/

namespace WizardBattle

/-! ## Data model -/

/-- The SDL rectangle: position `x`, `y` and extent `w`, `h`. -/
structure SDL_Rect where
  x : Int
  y : Int
  w : Int
  h : Int
deriving DecidableEq, Repr

/-- The object-like macros of `fonctions.h` used by `fonctions.c`.  The header is
absent from the sources, so their values are parameters of the embedding. -/
structure Consts where
  HAUT : Int
  BAS : Int
  DROITE : Int
  GAUCHE : Int
  TAILLE_SPRITE_PLAYER : Int
  DIM_SPRITE_PLAYER : Int
  VITESSE_JOUEUR_X : Int
  VITESSE_JOUEUR_Y : Int
  WINDOWS_WIDTH : Int
  WINDOWS_HEIGHT : Int
  LARGEUR_FOND : Int
  HAUTEUR_FOND : Int
  CAMERA_WIDTH : Int
  CAMERA_HEIGHT : Int
deriving DecidableEq, Repr

/-- The four global sprite textures of `fonctions.c` (lines 8-11). -/
inductive Texture where
  | run_front_tex
  | run_back_tex
  | run_right_tex
  | run_left_tex
deriving DecidableEq, Repr

/-- The arguments of the `SDL_RenderCopy` call that ends `actualisationSprite`.
`texSprite = none` stands for the local `texSprite` never having been assigned. -/
structure SpriteDraw where
  texSprite : Option Texture
  src : SDL_Rect
  dst : SDL_Rect
deriving DecidableEq, Repr

/-- One tile index pair, the `casx`, `casy` members written by `updateCamera`. -/
structure case_t where
  casx : Int
  casy : Int
deriving DecidableEq, Repr

/-- The four tile corners `updateCamera` hands to `afficherCarte`:
`hg` top-left, `hd` top-right, `bg` bottom-left, `bd` bottom-right. -/
structure positionJoueur_t where
  case_hg : case_t
  case_hd : case_t
  case_bg : case_t
  case_bd : case_t
deriving DecidableEq, Repr

/-- The keys `action` reads from the keyboard state array. -/
structure Clavier where
  W : Bool
  S : Bool
  A : Bool
  D : Bool
deriving DecidableEq, Repr

/-! ## Direction and sprite selection -/

/-- `getMousePositionDirection` (fonctions.c 124-148).  `x`, `y` are the values
`SDL_GetMouseState` stores. -/
def getMousePositionDirection (c : Consts) (pers_destination : SDL_Rect) (x y : Int) : Int :=
  let direction := c.BAS
  let x_joueur := pers_destination.x
  let y_joueur := pers_destination.y
  let x_relatif := x - x_joueur
  let y_relatif := -(y - y_joueur)
  if y_relatif > 0 then
    if x_relatif > 0 then c.DROITE
    else if x_relatif < 0 then c.BAS
    else direction
  else if y_relatif < 0 then
    if x_relatif > 0 then c.HAUT
    else if x_relatif < 0 then c.GAUCHE
    else direction
  else direction

/-- The `if` chain of `actualisationSprite` (fonctions.c 151-160) that assigns
`texSprite`; `none` when no branch is taken. -/
def selectTexture (c : Consts) (direction : Int) : Option Texture :=
  if direction = c.HAUT then some Texture.run_front_tex
  else if direction = c.BAS then some Texture.run_back_tex
  else if direction = c.DROITE then some Texture.run_right_tex
  else if direction = c.GAUCHE then some Texture.run_left_tex
  else none

/-- `actualisationSprite` (fonctions.c 150-171).  The result is the draw call it
issues, whose `src` and `dst` are the rectangles it leaves behind the two
pointers; `none` when `frame % nb_sprite` divides by zero. -/
def actualisationSprite (c : Consts) (nb_sprite frame largeur hauteur direction : Int)
    (src dst : SDL_Rect) : Option SpriteDraw :=
  let texSprite := selectTexture c direction
  if nb_sprite = 0 then none
  else
    let src := { src with x := (Int.tmod frame nb_sprite) * largeur }
    let src := { src with y := 0 }
    let src := { src with w := largeur }
    let src := { src with h := hauteur }
    let dst := { dst with w := c.TAILLE_SPRITE_PLAYER }
    let dst := { dst with h := c.TAILLE_SPRITE_PLAYER }
    some { texSprite := texSprite, src := src, dst := dst }

/-- The four keyboard moves of `action` (fonctions.c 176-187), applied in source
order to `pers_destination`. -/
def deplacement (c : Consts) (clavier : Clavier) (pers_destination : SDL_Rect) : SDL_Rect :=
  let p := pers_destination
  let p := if clavier.W && decide (p.y > 0) then { p with y := p.y - c.VITESSE_JOUEUR_Y } else p
  let p := if clavier.S && decide (p.y < c.WINDOWS_HEIGHT - c.DIM_SPRITE_PLAYER)
    then { p with y := p.y + c.VITESSE_JOUEUR_Y } else p
  let p := if clavier.A && decide (p.x > 0) then { p with x := p.x - c.VITESSE_JOUEUR_X } else p
  let p := if clavier.D && decide (p.x < c.WINDOWS_WIDTH - c.DIM_SPRITE_PLAYER)
    then { p with x := p.x + c.VITESSE_JOUEUR_X } else p
  p

/-- `action` (fonctions.c 173-192): move, read the direction from the mouse at
`(x, y)`, draw the sprite with six frames of size `DIM_SPRITE`. -/
def action (c : Consts) (clavier : Clavier) (pers_destination pers_source : SDL_Rect)
    (frame DIM_SPRITE x y : Int) : Option SpriteDraw :=
  let pers_destination := deplacement c clavier pers_destination
  let direction := getMousePositionDirection c pers_destination x y
  actualisationSprite c 6 frame DIM_SPRITE DIM_SPRITE direction pers_source pers_destination

/-! ## Single-precision arithmetic of the interpolation -/

/-- Number of low bits a binary32 significand cannot hold: how often `a` must be
halved to drop below `2^24`.  The first argument bounds the recursion. -/
def excessBits : Nat → Nat → Nat
  | 0, _ => 0
  | fuel + 1, a => if a < 2 ^ 24 then 0 else excessBits fuel (a / 2) + 1

/-- Round a natural number to 24 significant bits, to nearest, ties to even. -/
def roundSig24 (a : Nat) : Nat :=
  let s := excessBits a a
  let q := a / 2 ^ s
  let r := a % 2 ^ s
  if 2 * r < 2 ^ s then q * 2 ^ s
  else if 2 * r = 2 ^ s ∧ q % 2 = 0 then q * 2 ^ s
  else (q + 1) * 2 ^ s

/-- Rounding to 24 significant bits extended to signed values by symmetry. -/
def roundSig24Int (z : Int) : Int :=
  if z < 0 then -((roundSig24 z.natAbs : Nat) : Int) else ((roundSig24 z.natAbs : Nat) : Int)

/-- Significand of `0.1f`: the binary32 nearest to one tenth is `13421773 / 2^27`. -/
def interpolationFactorNum : Int := 13421773

/-- The value of `(int)(d * interpolationFactor)` (fonctions.c 207-208): `d` is
converted to `float`, multiplied by `0.1f` with the product rounded to `float`
(kept here as a numerator over `2^27`), and converted back by truncation. -/
def interpolationStep (d : Int) : Int :=
  Int.tdiv (roundSig24Int (roundSig24Int d * interpolationFactorNum)) (2 ^ 27)

/-! ## Camera -/

/-- Lines 203-208 of `updateCamera`: the camera after the interpolation and before
the limits are corrected. -/
def interpolateCamera (pers_destination cameraRect : SDL_Rect) : SDL_Rect :=
  let dx := (pers_destination.x * 2) - cameraRect.x
  let dy := (pers_destination.y * 4) - cameraRect.y
  let cameraRect := { cameraRect with x := cameraRect.x + interpolationStep dx }
  let cameraRect := { cameraRect with y := cameraRect.y + interpolationStep dy }
  cameraRect

/-- Lines 211-222 of `updateCamera`: the four corrections, in source order. -/
def clampCamera (c : Consts) (cameraRect : SDL_Rect) : SDL_Rect :=
  let cameraRect := if cameraRect.x < 0 then { cameraRect with x := 0 } else cameraRect
  let cameraRect := if cameraRect.y < 0 then { cameraRect with y := 0 } else cameraRect
  let cameraRect := if cameraRect.y > c.HAUTEUR_FOND - c.CAMERA_HEIGHT
    then { cameraRect with y := c.HAUTEUR_FOND - c.CAMERA_HEIGHT } else cameraRect
  let cameraRect := if cameraRect.x > c.LARGEUR_FOND - c.CAMERA_WIDTH
    then { cameraRect with x := c.LARGEUR_FOND - c.CAMERA_WIDTH } else cameraRect
  cameraRect

/-- Lines 230-240 of `updateCamera`: the tile corners of the camera.  `6/7` is the
C expression of line 233, an integer quotient. -/
def coinsCamera (c : Consts) (cameraRect : SDL_Rect) : positionJoueur_t :=
  { case_hg :=
      { casx := Int.tdiv (cameraRect.x - Int.tdiv c.DIM_SPRITE_PLAYER 7) 100
        casy := Int.tdiv (cameraRect.y - Int.tdiv c.DIM_SPRITE_PLAYER 7) 120 }
    case_hd :=
      { casx := Int.tdiv (cameraRect.x + (Int.tdiv 6 7) * c.DIM_SPRITE_PLAYER) 100
        casy := Int.tdiv (cameraRect.y - Int.tdiv c.DIM_SPRITE_PLAYER 7) 120 }
    case_bg :=
      { casx := Int.tdiv (cameraRect.x - Int.tdiv c.DIM_SPRITE_PLAYER 7) 100
        casy := Int.tdiv (cameraRect.y + (Int.tdiv 6 7) * c.DIM_SPRITE_PLAYER) 120 }
    case_bd :=
      { casx := Int.tdiv (cameraRect.x + (Int.tdiv 6 7) * c.DIM_SPRITE_PLAYER) 100
        casy := Int.tdiv (cameraRect.y + (Int.tdiv 6 7) * c.DIM_SPRITE_PLAYER) 120 } }

/-- `updateCamera` (fonctions.c 198-245): the rectangle left in `*cameraRect` and
the `position` passed to `afficherCarte`. -/
def updateCamera (c : Consts) (pers_destination cameraRect : SDL_Rect) :
    SDL_Rect × positionJoueur_t :=
  let cameraRect := clampCamera c (interpolateCamera pers_destination cameraRect)
  (cameraRect, coinsCamera c cameraRect)

/-- The camera after `n` successive `updateCamera` calls with the player at rest. -/
def cameraApres (c : Consts) (pers_destination : SDL_Rect) : Nat → SDL_Rect → SDL_Rect
  | 0, cameraRect => cameraRect
  | n + 1, cameraRect => cameraApres c pers_destination n (updateCamera c pers_destination cameraRect).1

/-- A configuration of the macros on which the functions are evaluated: sprite size
70 and an 800 by 600 camera as in the corner-index scenario of the specification,
camera ranges of 1800 and 2160 pixels as in the comment of line 228. -/
def exempleConsts : Consts :=
  { HAUT := 0, BAS := 1, DROITE := 2, GAUCHE := 3
    TAILLE_SPRITE_PLAYER := 100, DIM_SPRITE_PLAYER := 70
    VITESSE_JOUEUR_X := 5, VITESSE_JOUEUR_Y := 5
    WINDOWS_WIDTH := 800, WINDOWS_HEIGHT := 600
    LARGEUR_FOND := 2600, HAUTEUR_FOND := 2760
    CAMERA_WIDTH := 800, CAMERA_HEIGHT := 600 }

/-- One axis of `clampCamera`: the lower correction, then the upper one. -/
def clampAxe (M v : Int) : Int :=
  if (if v < 0 then 0 else v) > M then M else (if v < 0 then 0 else v)

/-- The interpolation step on a non-negative difference, on natural numbers. -/
def stepNat (n : Nat) : Nat := roundSig24 (roundSig24 n * 13421773) / 2 ^ 27

/-! ## Shape of `updateCamera` -/

theorem clampCamera_x (c : Consts) (r : SDL_Rect) :
    (clampCamera c r).x = clampAxe (c.LARGEUR_FOND - c.CAMERA_WIDTH) r.x := by
  unfold clampCamera clampAxe
  by_cases h1 : r.x < 0 <;> by_cases h2 : r.y < 0 <;> simp only [h1, h2, if_true, if_false] <;>
    split_ifs <;> simp_all

theorem clampCamera_y (c : Consts) (r : SDL_Rect) :
    (clampCamera c r).y = clampAxe (c.HAUTEUR_FOND - c.CAMERA_HEIGHT) r.y := by
  unfold clampCamera clampAxe
  by_cases h1 : r.x < 0 <;> by_cases h2 : r.y < 0 <;> simp only [h1, h2, if_true, if_false] <;>
    split_ifs <;> simp_all

theorem clampCamera_w (c : Consts) (r : SDL_Rect) : (clampCamera c r).w = r.w := by
  simp only [clampCamera]
  split_ifs <;> rfl

theorem clampCamera_h (c : Consts) (r : SDL_Rect) : (clampCamera c r).h = r.h := by
  simp only [clampCamera]
  split_ifs <;> rfl

theorem clampAxe_bounds (M v : Int) (hM : 0 ≤ M) : 0 ≤ clampAxe M v ∧ clampAxe M v ≤ M := by
  unfold clampAxe
  split_ifs <;> omega

theorem clampAxe_le (M v : Int) : clampAxe M v ≤ M := by
  unfold clampAxe
  split_ifs <;> omega

theorem clampAxe_of_mem (M v : Int) (h0 : 0 ≤ v) (h1 : v ≤ M) : clampAxe M v = v := by
  unfold clampAxe
  split_ifs <;> omega

theorem updateCamera_x (c : Consts) (p cam : SDL_Rect) :
    (updateCamera c p cam).1.x
      = clampAxe (c.LARGEUR_FOND - c.CAMERA_WIDTH) (cam.x + interpolationStep (p.x * 2 - cam.x)) := by
  simp only [updateCamera, clampCamera_x, interpolateCamera]

theorem updateCamera_y (c : Consts) (p cam : SDL_Rect) :
    (updateCamera c p cam).1.y
      = clampAxe (c.HAUTEUR_FOND - c.CAMERA_HEIGHT) (cam.y + interpolationStep (p.y * 4 - cam.y)) := by
  simp only [updateCamera, clampCamera_y, interpolateCamera]

theorem updateCamera_w (c : Consts) (p cam : SDL_Rect) : (updateCamera c p cam).1.w = cam.w := by
  simp only [updateCamera, clampCamera_w, interpolateCamera]

theorem updateCamera_h (c : Consts) (p cam : SDL_Rect) : (updateCamera c p cam).1.h = cam.h := by
  simp only [updateCamera, clampCamera_h, interpolateCamera]

theorem tdiv_cases (a b : Int) (hb : 0 < b) :
    (0 ≤ a ∧ Int.tdiv a b = a / b) ∨ (a < 0 ∧ Int.tdiv a b = -((-a) / b)) := by
  rcases le_or_lt 0 a with h | h
  · exact Or.inl ⟨h, Int.tdiv_eq_ediv h hb.le⟩
  · refine Or.inr ⟨h, ?_⟩
    have h2 : Int.tdiv (-a) b = (-a) / b := Int.tdiv_eq_ediv (by omega) hb.le
    rw [← h2, Int.neg_tdiv, neg_neg]

/-! ## Properties of the single-precision model -/

theorem excessBits_of_lt (fuel a : Nat) (h : a < 2 ^ 24) : excessBits fuel a = 0 := by
  cases fuel with
  | zero => rfl
  | succ n => simp only [excessBits, h, if_true]

theorem excessBits_le (fuel : Nat) : ∀ (a k : Nat), a < 2 ^ (24 + k) → excessBits fuel a ≤ k := by
  induction fuel with
  | zero => intro a k _; simp [excessBits]
  | succ n ih =>
    intro a k h
    by_cases ha : a < 2 ^ 24
    · simp only [excessBits, ha, if_true]
      omega
    · cases k with
      | zero => exact absurd h ha
      | succ k =>
        have h2 : a / 2 < 2 ^ (24 + k) := by
          have : 2 ^ (24 + (k + 1)) = 2 * 2 ^ (24 + k) := by ring
          omega
        have := ih (a / 2) k h2
        simp only [excessBits, ha, if_false]
        omega

theorem excessBits_pow_le (fuel : Nat) :
    ∀ a : Nat, excessBits fuel a = 0 ∨ 2 ^ excessBits fuel a * 2 ^ 23 ≤ a := by
  induction fuel with
  | zero => intro a; left; rfl
  | succ n ih =>
    intro a
    by_cases ha : a < 2 ^ 24
    · left; simp only [excessBits, ha, if_true]
    · right
      simp only [excessBits, ha, if_false]
      rcases ih (a / 2) with h0 | h1
      · rw [h0]
        norm_num at ha ⊢
        omega
      · have : 2 ^ (excessBits n (a / 2) + 1) * 2 ^ 23
            = 2 * (2 ^ excessBits n (a / 2) * 2 ^ 23) := by ring
        omega

/-- The rounding error is at most half a unit in the last place, and the result is
no smaller than the truncated significand. -/
theorem roundSig24_err (a : Nat) :
    2 * roundSig24 a ≤ 2 * a + 2 ^ excessBits a a ∧
    2 * a ≤ 2 * roundSig24 a + 2 ^ excessBits a a ∧
    a / 2 ^ excessBits a a * 2 ^ excessBits a a ≤ roundSig24 a := by
  have hP : 0 < 2 ^ excessBits a a := Nat.two_pow_pos _
  have hdm := Nat.div_add_mod a (2 ^ excessBits a a)
  have hr := Nat.mod_lt a hP
  simp only [roundSig24]
  generalize 2 ^ excessBits a a = P at *
  generalize a % P = r at *
  have hmul : P * (a / P) = a / P * P := Nat.mul_comm _ _
  have hadd : (a / P + 1) * P = a / P * P + P := by ring
  rw [hadd]
  generalize a / P * P = t at *
  split_ifs <;> omega

theorem roundSig24_of_lt (a : Nat) (h : a < 2 ^ 24) : roundSig24 a = a := by
  have h0 := excessBits_of_lt a a h
  obtain ⟨h1, h2, -⟩ := roundSig24_err a
  rw [h0] at h1 h2
  omega

theorem roundSig24_crude (a : Nat) : a ≤ 2 * roundSig24 a ∧ 2 * roundSig24 a ≤ 3 * a := by
  obtain ⟨h1, h2, -⟩ := roundSig24_err a
  rcases excessBits_pow_le a a with h0 | h0
  · rw [h0] at h1 h2
    omega
  · have : 2 ^ excessBits a a ≤ 2 ^ excessBits a a * 2 ^ 23 :=
      Nat.le_mul_of_pos_right _ (Nat.two_pow_pos _)
    omega

theorem stepNat_exact (n : Nat) (h : n < 2 ^ 24) : stepNat n = n / 10 := by
  unfold stepNat
  rw [roundSig24_of_lt n h]
  have hm : n * 13421773 < 2 ^ (24 + 24) := by norm_num at h ⊢; omega
  have hs : excessBits (n * 13421773) (n * 13421773) ≤ 24 := excessBits_le _ _ 24 hm
  obtain ⟨h1, -, h3⟩ := roundSig24_err (n * 13421773)
  have hPle : 2 ^ excessBits (n * 13421773) (n * 13421773) ≤ 2 ^ 24 :=
    Nat.pow_le_pow_right (by norm_num) hs
  have hPpos : 0 < 2 ^ excessBits (n * 13421773) (n * 13421773) := Nat.two_pow_pos _
  obtain ⟨k, hk⟩ : 2 ^ excessBits (n * 13421773) (n * 13421773) ∣ 2 ^ 27 :=
    Nat.pow_dvd_pow 2 (by omega)
  generalize 2 ^ excessBits (n * 13421773) (n * 13421773) = P at *
  generalize roundSig24 (n * 13421773) = R at *
  have hlow : 2 ^ 27 * (n / 10) ≤ R := by
    have e1 : k * (n / 10) * P ≤ n * 13421773 := by
      have : k * (n / 10) * P = (P * k) * (n / 10) := by ring
      rw [this, ← hk]
      norm_num
      omega
    have e2 : k * (n / 10) ≤ n * 13421773 / P := (Nat.le_div_iff_mul_le hPpos).2 e1
    have e3 : k * (n / 10) * P ≤ n * 13421773 / P * P := Nat.mul_le_mul_right P e2
    have e4 : k * (n / 10) * P = 2 ^ 27 * (n / 10) := by rw [hk]; ring
    omega
  norm_num at h hPle hlow ⊢
  omega

theorem stepNat_le (n : Nat) : stepNat n ≤ n := by
  unfold stepNat
  obtain ⟨-, h1⟩ := roundSig24_crude n
  obtain ⟨-, h2⟩ := roundSig24_crude (roundSig24 n * 13421773)
  generalize roundSig24 (roundSig24 n * 13421773) = R at *
  generalize roundSig24 n = d at *
  apply Nat.div_le_of_le_mul
  norm_num
  omega

theorem stepNat_pos (n : Nat) (h : 10 ≤ n) : 1 ≤ stepNat n := by
  by_cases hn : n < 2 ^ 24
  · rw [stepNat_exact n hn]
    omega
  · unfold stepNat
    obtain ⟨h1, -⟩ := roundSig24_crude n
    obtain ⟨h2, -⟩ := roundSig24_crude (roundSig24 n * 13421773)
    generalize roundSig24 (roundSig24 n * 13421773) = R at *
    generalize roundSig24 n = d at *
    rw [Nat.one_le_div_iff (by norm_num)]
    norm_num at hn ⊢
    omega

theorem roundSig24Int_natCast (n : Nat) : roundSig24Int (n : Int) = (roundSig24 n : Int) := by
  unfold roundSig24Int
  rw [if_neg (by omega), Int.natAbs_ofNat]

theorem roundSig24Int_neg (z : Int) : roundSig24Int (-z) = -roundSig24Int z := by
  unfold roundSig24Int
  rcases lt_trichotomy z 0 with h | h | h
  · rw [if_neg (by omega), if_pos h, Int.natAbs_neg, neg_neg]
  · subst h
    have h0 : roundSig24 0 = 0 := roundSig24_of_lt 0 (by norm_num)
    simp [h0]
  · rw [if_pos (by omega), if_neg (by omega), Int.natAbs_neg]

theorem interpolationStep_natCast (n : Nat) : interpolationStep (n : Int) = (stepNat n : Int) := by
  unfold interpolationStep stepNat interpolationFactorNum
  rw [roundSig24Int_natCast]
  have h : ((roundSig24 n : Nat) : Int) * 13421773 = ((roundSig24 n * 13421773 : Nat) : Int) := by
    push_cast; rfl
  rw [h, roundSig24Int_natCast, Int.tdiv_eq_ediv (by omega) (by norm_num)]
  norm_cast

theorem interpolationStep_neg (d : Int) : interpolationStep (-d) = -interpolationStep d := by
  unfold interpolationStep
  rw [roundSig24Int_neg, neg_mul, roundSig24Int_neg, Int.neg_tdiv]

/-- For differences below `2^24` in magnitude the single-precision step is the
quotient by ten truncated toward zero. -/
theorem interpolationStep_exact (d : Int) (h1 : -2 ^ 24 < d) (h2 : d < 2 ^ 24) :
    interpolationStep d = Int.tdiv d 10 := by
  rcases le_or_lt 0 d with h | h
  · obtain ⟨n, rfl⟩ := Int.eq_ofNat_of_zero_le h
    rw [interpolationStep_natCast, stepNat_exact n (by norm_num at h2 ⊢; omega),
      Int.tdiv_eq_ediv (by omega) (by norm_num)]
    omega
  · obtain ⟨n, hn⟩ := Int.eq_ofNat_of_zero_le (show 0 ≤ -d by omega)
    have hd : d = -(n : Int) := by omega
    rw [hd, interpolationStep_neg, interpolationStep_natCast,
      stepNat_exact n (by norm_num at h1 ⊢; omega), Int.neg_tdiv,
      Int.tdiv_eq_ediv (by omega) (by norm_num)]
    omega

/-- Sign, size and dead zone of the step, for every difference: it points toward the
target, never overshoots, is zero exactly when the difference is below ten. -/
theorem interpolationStep_spec (d : Int) :
    (0 ≤ d → 0 ≤ interpolationStep d ∧ interpolationStep d ≤ d) ∧
    (d ≤ 0 → d ≤ interpolationStep d ∧ interpolationStep d ≤ 0) ∧
    (10 ≤ d → 1 ≤ interpolationStep d) ∧
    (d ≤ -10 → interpolationStep d ≤ -1) ∧
    (-10 < d → d < 10 → interpolationStep d = 0) := by
  rcases le_or_lt 0 d with h | h
  · obtain ⟨n, rfl⟩ := Int.eq_ofNat_of_zero_le h
    rw [interpolationStep_natCast]
    have hle := stepNat_le n
    have hpos := stepNat_pos n
    have hex := stepNat_exact n
    refine ⟨fun _ => ⟨by omega, by omega⟩, fun _ => ⟨by omega, by omega⟩, fun h10 => ?_,
      fun _ => by omega, fun _ h10 => ?_⟩
    · have := hpos (by omega)
      omega
    · have := hex (by norm_num; omega)
      omega
  · obtain ⟨n, hn⟩ := Int.eq_ofNat_of_zero_le (show 0 ≤ -d by omega)
    have hd : d = -(n : Int) := by omega
    rw [hd, interpolationStep_neg, interpolationStep_natCast]
    have hle := stepNat_le n
    have hpos := stepNat_pos n
    have hex := stepNat_exact n
    refine ⟨fun _ => ⟨by omega, by omega⟩, fun _ => ⟨by omega, by omega⟩, fun _ => by omega,
      fun h10 => ?_, fun h10 _ => ?_⟩
    · have := hpos (by omega)
      omega
    · have := hex (by norm_num; omega)
      omega

/-- The recursion bound of `excessBits` is never reached: the rounded significand
fits 24 bits. -/
theorem excessBits_normalises (fuel : Nat) :
    ∀ a : Nat, a < 2 ^ 24 * 2 ^ fuel → a / 2 ^ excessBits fuel a < 2 ^ 24 := by
  induction fuel with
  | zero => intro a h; simpa [excessBits] using h
  | succ n ih =>
    intro a h
    by_cases ha : a < 2 ^ 24
    · simp only [excessBits, ha, if_true]
      simpa using ha
    · simp only [excessBits, ha, if_false]
      have h2 : a / 2 < 2 ^ 24 * 2 ^ n := by
        have : 2 ^ 24 * 2 ^ (n + 1) = 2 * (2 ^ 24 * 2 ^ n) := by ring
        omega
      have := ih (a / 2) h2
      rw [Nat.pow_succ, Nat.mul_comm, ← Nat.div_div_eq_div_mul]
      exact this

theorem roundSig24_normalised (a : Nat) : a / 2 ^ excessBits a a < 2 ^ 24 := by
  apply excessBits_normalises
  have h1 : a < 2 ^ a := Nat.lt_two_pow a
  have h2 : 2 ^ a ≤ 2 ^ 24 * 2 ^ a := Nat.le_mul_of_pos_left _ (by norm_num)
  omega

/-! ## One axis of the camera -/

theorem axis_step (M t x : Int) (hM : 0 ≤ M) (ht : 0 ≤ t) (hx0 : 0 ≤ x) (hx1 : x ≤ M) :
    (clampAxe M (x + interpolationStep (t - x)) = x →
      -9 ≤ x - max 0 (min t M) ∧ x - max 0 (min t M) ≤ 9) ∧
    (clampAxe M (x + interpolationStep (t - x)) ≠ x →
      (t - clampAxe M (x + interpolationStep (t - x))).natAbs < (t - x).natAbs) ∧
    (t - clampAxe M (x + interpolationStep (t - x))).natAbs ≤ (t - x).natAbs := by
  obtain ⟨h1, h2, h3, h4, h5⟩ := interpolationStep_spec (t - x)
  generalize interpolationStep (t - x) = s at *
  unfold clampAxe
  refine ⟨?_, ?_, ?_⟩ <;> split_ifs <;> omega

/-! ## Repeated updates -/

theorem SDL_Rect.eq_of_fields (a b : SDL_Rect) (hx : a.x = b.x) (hy : a.y = b.y)
    (hw : a.w = b.w) (hh : a.h = b.h) : a = b := by
  cases a; cases b; simp_all

theorem updateCamera_bounds (c : Consts) (p cam : SDL_Rect)
    (hW : c.CAMERA_WIDTH ≤ c.LARGEUR_FOND) (hH : c.CAMERA_HEIGHT ≤ c.HAUTEUR_FOND) :
    0 ≤ (updateCamera c p cam).1.x ∧
    (updateCamera c p cam).1.x ≤ c.LARGEUR_FOND - c.CAMERA_WIDTH ∧
    0 ≤ (updateCamera c p cam).1.y ∧
    (updateCamera c p cam).1.y ≤ c.HAUTEUR_FOND - c.CAMERA_HEIGHT := by
  rw [updateCamera_x, updateCamera_y]
  have hx := clampAxe_bounds (c.LARGEUR_FOND - c.CAMERA_WIDTH)
    (cam.x + interpolationStep (p.x * 2 - cam.x)) (by omega)
  have hy := clampAxe_bounds (c.HAUTEUR_FOND - c.CAMERA_HEIGHT)
    (cam.y + interpolationStep (p.y * 4 - cam.y)) (by omega)
  exact ⟨hx.1, hx.2, hy.1, hy.2⟩

theorem cameraApres_of_fixed (c : Consts) (p cam : SDL_Rect)
    (hfix : (updateCamera c p cam).1 = cam) : ∀ n, cameraApres c p n cam = cam := by
  intro n
  induction n with
  | zero => rfl
  | succ n ih => rw [cameraApres, hfix, ih]

theorem cameraApres_settles_aux (c : Consts) (p : SDL_Rect)
    (hW : c.CAMERA_WIDTH ≤ c.LARGEUR_FOND) (hH : c.CAMERA_HEIGHT ≤ c.HAUTEUR_FOND)
    (hpx : 0 ≤ p.x) (hpy : 0 ≤ p.y) :
    ∀ (k : Nat) (cam : SDL_Rect),
      0 ≤ cam.x → cam.x ≤ c.LARGEUR_FOND - c.CAMERA_WIDTH →
      0 ≤ cam.y → cam.y ≤ c.HAUTEUR_FOND - c.CAMERA_HEIGHT →
      (p.x * 2 - cam.x).natAbs + (p.y * 4 - cam.y).natAbs ≤ k →
      ∃ N, ∀ n, N ≤ n →
        cameraApres c p n cam = cameraApres c p N cam ∧
        (-9 ≤ (cameraApres c p N cam).x - max 0 (min (p.x * 2) (c.LARGEUR_FOND - c.CAMERA_WIDTH)) ∧
          (cameraApres c p N cam).x - max 0 (min (p.x * 2) (c.LARGEUR_FOND - c.CAMERA_WIDTH)) ≤ 9) ∧
        (-9 ≤ (cameraApres c p N cam).y - max 0 (min (p.y * 4) (c.HAUTEUR_FOND - c.CAMERA_HEIGHT)) ∧
          (cameraApres c p N cam).y - max 0 (min (p.y * 4) (c.HAUTEUR_FOND - c.CAMERA_HEIGHT)) ≤ 9) := by
  intro k
  induction k with
  | zero =>
    intro cam hx0 hx1 hy0 hy1 hk
    have ax := axis_step (c.LARGEUR_FOND - c.CAMERA_WIDTH) (p.x * 2) cam.x (by omega) (by omega) hx0 hx1
    have ay := axis_step (c.HAUTEUR_FOND - c.CAMERA_HEIGHT) (p.y * 4) cam.y (by omega) (by omega) hy0 hy1
    rw [← updateCamera_x] at ax
    rw [← updateCamera_y] at ay
    have hfx : (updateCamera c p cam).1.x = cam.x := by
      by_contra hne
      have := ax.2.1 hne
      omega
    have hfy : (updateCamera c p cam).1.y = cam.y := by
      by_contra hne
      have := ay.2.1 hne
      omega
    have hfix : (updateCamera c p cam).1 = cam :=
      SDL_Rect.eq_of_fields _ _ hfx hfy (updateCamera_w c p cam) (updateCamera_h c p cam)
    refine ⟨0, fun n _ => ⟨?_, ax.1 hfx, ay.1 hfy⟩⟩
    rw [cameraApres_of_fixed c p cam hfix n, cameraApres_of_fixed c p cam hfix 0]
  | succ k ih =>
    intro cam hx0 hx1 hy0 hy1 hk
    have ax := axis_step (c.LARGEUR_FOND - c.CAMERA_WIDTH) (p.x * 2) cam.x (by omega) (by omega) hx0 hx1
    have ay := axis_step (c.HAUTEUR_FOND - c.CAMERA_HEIGHT) (p.y * 4) cam.y (by omega) (by omega) hy0 hy1
    rw [← updateCamera_x] at ax
    rw [← updateCamera_y] at ay
    by_cases hfix : (updateCamera c p cam).1 = cam
    · have hfx : (updateCamera c p cam).1.x = cam.x := by rw [hfix]
      have hfy : (updateCamera c p cam).1.y = cam.y := by rw [hfix]
      refine ⟨0, fun n _ => ⟨?_, ax.1 hfx, ay.1 hfy⟩⟩
      rw [cameraApres_of_fixed c p cam hfix n, cameraApres_of_fixed c p cam hfix 0]
    · have hmoved : (updateCamera c p cam).1.x ≠ cam.x ∨ (updateCamera c p cam).1.y ≠ cam.y := by
        by_contra hcon
        push_neg at hcon
        exact hfix (SDL_Rect.eq_of_fields _ _ hcon.1 hcon.2 (updateCamera_w c p cam)
          (updateCamera_h c p cam))
      obtain ⟨bx0, bx1, by0, by1⟩ := updateCamera_bounds c p cam hW hH
      have hdec : (p.x * 2 - (updateCamera c p cam).1.x).natAbs
          + (p.y * 4 - (updateCamera c p cam).1.y).natAbs ≤ k := by
        have ax3 := ax.2.2
        have ay3 := ay.2.2
        rcases hmoved with hm | hm
        · have := ax.2.1 hm
          omega
        · have := ay.2.1 hm
          omega
      obtain ⟨N, hN⟩ := ih (updateCamera c p cam).1 bx0 bx1 by0 by1 hdec
      refine ⟨N + 1, fun n hn => ?_⟩
      obtain ⟨m, rfl⟩ : ∃ m, n = m + 1 := ⟨n - 1, by omega⟩
      simp only [cameraApres]
      exact hN m (by omega)

/-! ## The camera stays on the map -/

/-- C1: with a map at least as large as the camera, after `updateCamera` the camera
position satisfies `0 ≤ x ≤ LARGEUR_FOND - CAMERA_WIDTH` and
`0 ≤ y ≤ HAUTEUR_FOND - CAMERA_HEIGHT`, for every player position and every starting
camera rectangle. -/
theorem updateCamera_camera_in_bounds (c : Consts) (pers_destination cameraRect : SDL_Rect)
    (hW : c.CAMERA_WIDTH ≤ c.LARGEUR_FOND) (hH : c.CAMERA_HEIGHT ≤ c.HAUTEUR_FOND) :
    0 ≤ (updateCamera c pers_destination cameraRect).1.x ∧
    (updateCamera c pers_destination cameraRect).1.x ≤ c.LARGEUR_FOND - c.CAMERA_WIDTH ∧
    0 ≤ (updateCamera c pers_destination cameraRect).1.y ∧
    (updateCamera c pers_destination cameraRect).1.y ≤ c.HAUTEUR_FOND - c.CAMERA_HEIGHT :=
  updateCamera_bounds c pers_destination cameraRect hW hH

/-- Witness of C1: the player at (1000, 700) and the camera at (1790, 2100) on the
example configuration; the camera ends at (1800, 2160), the upper limits. -/
theorem updateCamera_camera_in_bounds_witness :
    (updateCamera exempleConsts ⟨1000, 700, 70, 70⟩ ⟨1790, 2100, 800, 600⟩).1
        = ⟨1800, 2160, 800, 600⟩ ∧
    0 ≤ (updateCamera exempleConsts ⟨1000, 700, 70, 70⟩ ⟨1790, 2100, 800, 600⟩).1.x ∧
    (updateCamera exempleConsts ⟨1000, 700, 70, 70⟩ ⟨1790, 2100, 800, 600⟩).1.x
        ≤ exempleConsts.LARGEUR_FOND - exempleConsts.CAMERA_WIDTH ∧
    0 ≤ (updateCamera exempleConsts ⟨1000, 700, 70, 70⟩ ⟨1790, 2100, 800, 600⟩).1.y ∧
    (updateCamera exempleConsts ⟨1000, 700, 70, 70⟩ ⟨1790, 2100, 800, 600⟩).1.y
        ≤ exempleConsts.HAUTEUR_FOND - exempleConsts.CAMERA_HEIGHT :=
  ⟨by decide, updateCamera_camera_in_bounds exempleConsts ⟨1000, 700, 70, 70⟩
    ⟨1790, 2100, 800, 600⟩ (by decide) (by decide)⟩

/-! ## Direction from the mouse -/

/-- C2: with `dx = x - player.x` and `dy = -(y - player.y)`, the direction is DROITE
when `dy > 0` and `dx > 0`, BAS when `dy > 0` and `dx < 0`, HAUT when `dy < 0` and
`dx > 0`, GAUCHE when `dy < 0` and `dx < 0`, and BAS whenever `dx = 0` or `dy = 0`;
player (100,100) with mouse (150,50) gives DROITE, with mouse (50,150) GAUCHE, and a
mouse on the player gives BAS. -/
theorem getMousePositionDirection_table (c : Consts) (pers_destination : SDL_Rect) (x y : Int) :
    ((-(y - pers_destination.y) > 0 ∧ x - pers_destination.x > 0 →
        getMousePositionDirection c pers_destination x y = c.DROITE) ∧
     (-(y - pers_destination.y) > 0 ∧ x - pers_destination.x < 0 →
        getMousePositionDirection c pers_destination x y = c.BAS) ∧
     (-(y - pers_destination.y) < 0 ∧ x - pers_destination.x > 0 →
        getMousePositionDirection c pers_destination x y = c.HAUT) ∧
     (-(y - pers_destination.y) < 0 ∧ x - pers_destination.x < 0 →
        getMousePositionDirection c pers_destination x y = c.GAUCHE) ∧
     (x - pers_destination.x = 0 ∨ -(y - pers_destination.y) = 0 →
        getMousePositionDirection c pers_destination x y = c.BAS)) ∧
    getMousePositionDirection c { pers_destination with x := 100, y := 100 } 150 50 = c.DROITE ∧
    getMousePositionDirection c { pers_destination with x := 100, y := 100 } 50 150 = c.GAUCHE ∧
    getMousePositionDirection c pers_destination pers_destination.x pers_destination.y = c.BAS := by
  refine ⟨⟨?_, ?_, ?_, ?_, ?_⟩, ?_, ?_, ?_⟩
  · rintro ⟨hy, hx⟩
    simp only [getMousePositionDirection, hy, hx, if_true]
  · rintro ⟨hy, hx⟩
    have hx2 : ¬ (x - pers_destination.x > 0) := by omega
    simp only [getMousePositionDirection, hy, hx, hx2, if_true, if_false]
  · rintro ⟨hy, hx⟩
    have hy2 : ¬ (-(y - pers_destination.y) > 0) := by omega
    simp only [getMousePositionDirection, hy, hx, hy2, if_true, if_false]
  · rintro ⟨hy, hx⟩
    have hy2 : ¬ (-(y - pers_destination.y) > 0) := by omega
    have hx2 : ¬ (x - pers_destination.x > 0) := by omega
    simp only [getMousePositionDirection, hy, hx, hy2, hx2, if_true, if_false]
  · rintro (hx | hy)
    · have hx1 : ¬ (x - pers_destination.x > 0) := by omega
      have hx2 : ¬ (x - pers_destination.x < 0) := by omega
      simp only [getMousePositionDirection, hx1, hx2, if_false, ite_self]
    · have hy1 : ¬ (-(y - pers_destination.y) > 0) := by omega
      have hy2 : ¬ (-(y - pers_destination.y) < 0) := by omega
      simp only [getMousePositionDirection, hy1, hy2, if_false]
  · simp [getMousePositionDirection]
  · simp [getMousePositionDirection]
  · simp [getMousePositionDirection]

/-! ## Source rectangle of the sprite -/

/-- C3: for every direction, every frame `≥ 0`, every sprite count `> 0` and every
cell width and height, `actualisationSprite` sets the source rectangle to
`x = (frame mod nb_sprite) * largeur`, `y = 0`, `w = largeur`, `h = hauteur`; the
frames `0`, `nb_sprite - 1`, `nb_sprite` and `2 * nb_sprite + 3` are spelled out. -/
theorem actualisationSprite_src (c : Consts) (nb_sprite frame largeur hauteur direction : Int)
    (src dst : SDL_Rect) (hframe : 0 ≤ frame) (hnb : 0 < nb_sprite) :
    (actualisationSprite c nb_sprite frame largeur hauteur direction src dst).map SpriteDraw.src
      = some ⟨(frame % nb_sprite) * largeur, 0, largeur, hauteur⟩ ∧
    (actualisationSprite c nb_sprite 0 largeur hauteur direction src dst).map SpriteDraw.src
      = some ⟨0, 0, largeur, hauteur⟩ ∧
    (actualisationSprite c nb_sprite (nb_sprite - 1) largeur hauteur direction src dst).map
      SpriteDraw.src = some ⟨(nb_sprite - 1) * largeur, 0, largeur, hauteur⟩ ∧
    (actualisationSprite c nb_sprite nb_sprite largeur hauteur direction src dst).map
      SpriteDraw.src = some ⟨0, 0, largeur, hauteur⟩ ∧
    (actualisationSprite c nb_sprite (2 * nb_sprite + 3) largeur hauteur direction src dst).map
      SpriteDraw.src = some ⟨(3 % nb_sprite) * largeur, 0, largeur, hauteur⟩ := by
  have key : ∀ f : Int, 0 ≤ f →
      (actualisationSprite c nb_sprite f largeur hauteur direction src dst).map SpriteDraw.src
        = some ⟨(f % nb_sprite) * largeur, 0, largeur, hauteur⟩ := by
    intro f hf
    simp only [actualisationSprite]
    rw [if_neg (by omega), Int.tmod_eq_emod hf (by omega)]
    rfl
  refine ⟨key frame hframe, ?_, ?_, ?_, ?_⟩
  · rw [key 0 (by omega)]
    simp
  · rw [key (nb_sprite - 1) (by omega), Int.emod_eq_of_lt (by omega) (by omega)]
  · rw [key nb_sprite (by omega)]
    simp
  · rw [key (2 * nb_sprite + 3) (by omega)]
    have h : (2 * nb_sprite + 3) % nb_sprite = 3 % nb_sprite := by
      rw [Int.add_comm, Int.mul_comm, Int.add_mul_emod_self_left]
    rw [h]

/-- Witness of C3: six sprites of 70 by 70 pixels at frame 15, direction HAUT of the
example configuration; the source rectangle starts at `x = 3 * 70`. -/
theorem actualisationSprite_src_witness :
    (actualisationSprite exempleConsts 6 15 70 70 0 ⟨0, 0, 0, 0⟩ ⟨10, 20, 0, 0⟩).map SpriteDraw.src
      = some ⟨210, 0, 70, 70⟩ :=
  (actualisationSprite_src exempleConsts 6 15 70 70 0 ⟨0, 0, 0, 0⟩ ⟨10, 20, 0, 0⟩
    (by decide) (by decide)).1

/-! ## Tile corners -/

/-- C4, what the code does: the bottom-right corner is the clamped camera position
divided by 100 and 120, the sprite term `(6/7)*DIM_SPRITE_PLAYER` being zero.  With
sprite size 70 and the camera resting at (250, 240) the corner is (2, 2), where
`(250 + 60)/100` and `(240 + 60)/120` give (3, 2). -/
theorem updateCamera_case_bd_without_sprite_term :
    (∀ (c : Consts) (pers_destination cameraRect : SDL_Rect),
      (updateCamera c pers_destination cameraRect).2.case_bd
        = ⟨Int.tdiv (updateCamera c pers_destination cameraRect).1.x 100,
           Int.tdiv (updateCamera c pers_destination cameraRect).1.y 120⟩) ∧
    exempleConsts.DIM_SPRITE_PLAYER = 70 ∧
    (updateCamera exempleConsts ⟨125, 60, 70, 70⟩ ⟨250, 240, 800, 600⟩).1
      = ⟨250, 240, 800, 600⟩ ∧
    (updateCamera exempleConsts ⟨125, 60, 70, 70⟩ ⟨250, 240, 800, 600⟩).2.case_bd = ⟨2, 2⟩ ∧
    (⟨Int.tdiv (250 + Int.tdiv (6 * 70) 7) 100, Int.tdiv (240 + Int.tdiv (6 * 70) 7) 120⟩ : case_t)
      = ⟨3, 2⟩ := by
  refine ⟨?_, by decide, by decide, by decide, by decide⟩
  intro c p cam
  have h67 : Int.tdiv 6 7 = 0 := by decide
  simp only [updateCamera, coinsCamera, h67, zero_mul, add_zero]

/-- C5: the top-left tile corner handed to the map renderer is computed from the
camera position after the limits are corrected, the position left in `cameraRect`:
column `(x - s/7) / 100` and row `(y - s/7) / 120` with `s = DIM_SPRITE_PLAYER`.  A
clamped camera at (200, 240) with sprite size 70 gives (1, 1); where the limits cut
the interpolated (1811, 2170) back to (1800, 2160) the corner is (17, 17), the
unclamped position would give (18, 18). -/
theorem updateCamera_case_hg_from_clamped (c : Consts) (pers_destination cameraRect : SDL_Rect) :
    (updateCamera c pers_destination cameraRect).1
      = clampCamera c (interpolateCamera pers_destination cameraRect) ∧
    (updateCamera c pers_destination cameraRect).2.case_hg
      = ⟨Int.tdiv ((updateCamera c pers_destination cameraRect).1.x
            - Int.tdiv c.DIM_SPRITE_PLAYER 7) 100,
         Int.tdiv ((updateCamera c pers_destination cameraRect).1.y
            - Int.tdiv c.DIM_SPRITE_PLAYER 7) 120⟩ ∧
    (updateCamera exempleConsts ⟨100, 60, 70, 70⟩ ⟨200, 240, 800, 600⟩).1
      = ⟨200, 240, 800, 600⟩ ∧
    (updateCamera exempleConsts ⟨100, 60, 70, 70⟩ ⟨200, 240, 800, 600⟩).2.case_hg = ⟨1, 1⟩ ∧
    interpolateCamera ⟨1000, 700, 70, 70⟩ ⟨1790, 2100, 800, 600⟩ = ⟨1811, 2170, 800, 600⟩ ∧
    (updateCamera exempleConsts ⟨1000, 700, 70, 70⟩ ⟨1790, 2100, 800, 600⟩).1
      = ⟨1800, 2160, 800, 600⟩ ∧
    (updateCamera exempleConsts ⟨1000, 700, 70, 70⟩ ⟨1790, 2100, 800, 600⟩).2.case_hg
      = ⟨17, 17⟩ ∧
    (coinsCamera exempleConsts ⟨1811, 2170, 800, 600⟩).case_hg = ⟨18, 18⟩ := by
  refine ⟨rfl, rfl, by decide, by decide, by decide, by decide, by decide, by decide⟩

/-! ## Interpolation toward the player -/

/-- C6 as stated fails: with the player at (100, 100) and the camera at (5, 7) the
stated values are `5 + (200 - 5) * 0.1 = 24.5` and `7 + (400 - 7) * 0.1 = 46.3`;
the code leaves the integers 24 and 46. -/
theorem interpolateCamera_not_exact_tenth :
    (interpolateCamera ⟨100, 100, 70, 70⟩ ⟨5, 7, 800, 600⟩).x = 24 ∧
    (interpolateCamera ⟨100, 100, 70, 70⟩ ⟨5, 7, 800, 600⟩).y = 46 ∧
    ((interpolateCamera ⟨100, 100, 70, 70⟩ ⟨5, 7, 800, 600⟩).x : ℚ)
      ≠ (5 : ℚ) + (2 * 100 - 5) * (1 / 10) ∧
    ((interpolateCamera ⟨100, 100, 70, 70⟩ ⟨5, 7, 800, 600⟩).y : ℚ)
      ≠ (7 : ℚ) + (4 * 100 - 7) * (1 / 10) := by
  have hx : (interpolateCamera ⟨100, 100, 70, 70⟩ ⟨5, 7, 800, 600⟩).x = 24 := by decide
  have hy : (interpolateCamera ⟨100, 100, 70, 70⟩ ⟨5, 7, 800, 600⟩).y = 46 := by decide
  refine ⟨hx, hy, ?_, ?_⟩
  · rw [hx]; norm_num
  · rw [hy]; norm_num

/-- C6 amended: the target is `(2*p.x, 4*p.y)` and, for differences to the target
below `2^24` in magnitude, one `updateCamera` call computes before clamping
`v.x + trunc((2*p.x - v.x) / 10)` and `v.y + trunc((4*p.y - v.y) / 10)`, the tenth
of the difference truncated toward zero to whole pixels. -/
theorem interpolateCamera_adds_truncated_tenth (c : Consts)
    (pers_destination cameraRect : SDL_Rect)
    (hx1 : -2 ^ 24 < pers_destination.x * 2 - cameraRect.x)
    (hx2 : pers_destination.x * 2 - cameraRect.x < 2 ^ 24)
    (hy1 : -2 ^ 24 < pers_destination.y * 4 - cameraRect.y)
    (hy2 : pers_destination.y * 4 - cameraRect.y < 2 ^ 24) :
    (interpolateCamera pers_destination cameraRect).x
      = cameraRect.x + Int.tdiv (2 * pers_destination.x - cameraRect.x) 10 ∧
    (interpolateCamera pers_destination cameraRect).y
      = cameraRect.y + Int.tdiv (4 * pers_destination.y - cameraRect.y) 10 ∧
    (updateCamera c pers_destination cameraRect).1
      = clampCamera c (interpolateCamera pers_destination cameraRect) := by
  have ex : 2 * pers_destination.x - cameraRect.x = pers_destination.x * 2 - cameraRect.x := by ring
  have ey : 4 * pers_destination.y - cameraRect.y = pers_destination.y * 4 - cameraRect.y := by ring
  refine ⟨?_, ?_, rfl⟩
  · rw [ex, ← interpolationStep_exact _ hx1 hx2]; rfl
  · rw [ey, ← interpolationStep_exact _ hy1 hy2]; rfl

/-- Witness of C6 amended: player (100, 100), camera (5, 7); the differences are 195
and 393 and the camera moves to (24, 46) before clamping. -/
theorem interpolateCamera_adds_truncated_tenth_witness :
    (interpolateCamera ⟨100, 100, 70, 70⟩ ⟨5, 7, 800, 600⟩).x = 5 + Int.tdiv (2 * 100 - 5) 10 ∧
    (interpolateCamera ⟨100, 100, 70, 70⟩ ⟨5, 7, 800, 600⟩).y = 7 + Int.tdiv (4 * 100 - 7) 10 :=
  ⟨(interpolateCamera_adds_truncated_tenth exempleConsts ⟨100, 100, 70, 70⟩ ⟨5, 7, 800, 600⟩
      (by decide) (by decide) (by decide) (by decide)).1,
   (interpolateCamera_adds_truncated_tenth exempleConsts ⟨100, 100, 70, 70⟩ ⟨5, 7, 800, 600⟩
      (by decide) (by decide) (by decide) (by decide)).2.1⟩

/-- C7 as stated fails: on the example configuration a camera at its target
(-2, -4), player at (-1, -1), is moved to (0, 0), and a camera at its target
(2000, 2400), player at (1000, 600), is moved to the limits (1800, 2160). -/
theorem updateCamera_at_target_moved :
    ((-2 : Int) = -1 * 2 ∧ (-4 : Int) = -1 * 4 ∧
      (updateCamera exempleConsts ⟨-1, -1, 70, 70⟩ ⟨-2, -4, 800, 600⟩).1 = ⟨0, 0, 800, 600⟩ ∧
      (updateCamera exempleConsts ⟨-1, -1, 70, 70⟩ ⟨-2, -4, 800, 600⟩).1 ≠ ⟨-2, -4, 800, 600⟩) ∧
    ((2000 : Int) = 1000 * 2 ∧ (2400 : Int) = 600 * 4 ∧
      (updateCamera exempleConsts ⟨1000, 600, 70, 70⟩ ⟨2000, 2400, 800, 600⟩).1
        = ⟨1800, 2160, 800, 600⟩ ∧
      (updateCamera exempleConsts ⟨1000, 600, 70, 70⟩ ⟨2000, 2400, 800, 600⟩).1
        ≠ ⟨2000, 2400, 800, 600⟩) := by
  refine ⟨⟨by decide, by decide, by decide, by decide⟩, by decide, by decide, by decide, by decide⟩

/-- C7 amended: when the camera position equals the target `(2*p.x, 4*p.y)` and
lies within the camera limits `[0, LARGEUR_FOND - CAMERA_WIDTH]` by
`[0, HAUTEUR_FOND - CAMERA_HEIGHT]`, `updateCamera` leaves the camera rectangle
unchanged. -/
theorem updateCamera_fixed_at_target (c : Consts) (pers_destination cameraRect : SDL_Rect)
    (hx : cameraRect.x = 2 * pers_destination.x) (hy : cameraRect.y = 4 * pers_destination.y)
    (hx0 : 0 ≤ cameraRect.x) (hx1 : cameraRect.x ≤ c.LARGEUR_FOND - c.CAMERA_WIDTH)
    (hy0 : 0 ≤ cameraRect.y) (hy1 : cameraRect.y ≤ c.HAUTEUR_FOND - c.CAMERA_HEIGHT) :
    (updateCamera c pers_destination cameraRect).1 = cameraRect := by
  have h0 : interpolationStep 0 = 0 := by decide
  have dx : pers_destination.x * 2 - cameraRect.x = 0 := by omega
  have dy : pers_destination.y * 4 - cameraRect.y = 0 := by omega
  apply SDL_Rect.eq_of_fields
  · rw [updateCamera_x, dx, h0, add_zero, clampAxe_of_mem _ _ hx0 hx1]
  · rw [updateCamera_y, dy, h0, add_zero, clampAxe_of_mem _ _ hy0 hy1]
  · exact updateCamera_w c pers_destination cameraRect
  · exact updateCamera_h c pers_destination cameraRect

/-- Witness of C7 amended: the example configuration, player (100, 60), camera at
the target (200, 240). -/
theorem updateCamera_fixed_at_target_witness :
    (updateCamera exempleConsts ⟨100, 60, 70, 70⟩ ⟨200, 240, 800, 600⟩).1
      = ⟨200, 240, 800, 600⟩ :=
  updateCamera_fixed_at_target exempleConsts ⟨100, 60, 70, 70⟩ ⟨200, 240, 800, 600⟩
    (by decide) (by decide) (by decide) (by decide) (by decide) (by decide)

/-- C8 as stated fails: on the example configuration, with the player at (4, 2),
inside the map, and the camera at (0, 0), the clamped target is (8, 8) and every
number of calls leaves the camera at (0, 0). -/
theorem cameraApres_never_reaches_target :
    (0 ≤ (4 : Int) ∧ (4 : Int) ≤ exempleConsts.LARGEUR_FOND ∧
      0 ≤ (2 : Int) ∧ (2 : Int) ≤ exempleConsts.HAUTEUR_FOND) ∧
    max 0 (min ((4 : Int) * 2) (exempleConsts.LARGEUR_FOND - exempleConsts.CAMERA_WIDTH)) = 8 ∧
    max 0 (min ((2 : Int) * 4) (exempleConsts.HAUTEUR_FOND - exempleConsts.CAMERA_HEIGHT)) = 8 ∧
    (∀ n, cameraApres exempleConsts ⟨4, 2, 70, 70⟩ n ⟨0, 0, 800, 600⟩ = ⟨0, 0, 800, 600⟩) ∧
    ¬ ∃ N, ∀ n, N ≤ n →
      (cameraApres exempleConsts ⟨4, 2, 70, 70⟩ n ⟨0, 0, 800, 600⟩).x = 8 ∧
      (cameraApres exempleConsts ⟨4, 2, 70, 70⟩ n ⟨0, 0, 800, 600⟩).y = 8 := by
  have hfix : ∀ n, cameraApres exempleConsts ⟨4, 2, 70, 70⟩ n ⟨0, 0, 800, 600⟩
      = ⟨0, 0, 800, 600⟩ :=
    cameraApres_of_fixed exempleConsts ⟨4, 2, 70, 70⟩ ⟨0, 0, 800, 600⟩ (by decide)
  refine ⟨by decide, by decide, by decide, hfix, ?_⟩
  rintro ⟨N, hN⟩
  have h := (hN N le_rfl).1
  rw [hfix N] at h
  exact absurd h (by decide)

/-- C8 amended: for a player at rest with `p.x ≥ 0` and `p.y ≥ 0`, a map at least as
large as the camera and every starting camera rectangle, there is a number of calls
after which the camera no longer changes, and on each axis the place where it rests
is within 9 pixels of the target `(2*p.x, 4*p.y)` clamped to
`[0, LARGEUR_FOND - CAMERA_WIDTH]` by `[0, HAUTEUR_FOND - CAMERA_HEIGHT]`. -/
theorem cameraApres_settles (c : Consts) (pers_destination cameraRect : SDL_Rect)
    (hW : c.CAMERA_WIDTH ≤ c.LARGEUR_FOND) (hH : c.CAMERA_HEIGHT ≤ c.HAUTEUR_FOND)
    (hpx : 0 ≤ pers_destination.x) (hpy : 0 ≤ pers_destination.y) :
    ∃ N, ∀ n, N ≤ n →
      cameraApres c pers_destination n cameraRect = cameraApres c pers_destination N cameraRect ∧
      |(cameraApres c pers_destination N cameraRect).x
        - max 0 (min (2 * pers_destination.x) (c.LARGEUR_FOND - c.CAMERA_WIDTH))| ≤ 9 ∧
      |(cameraApres c pers_destination N cameraRect).y
        - max 0 (min (4 * pers_destination.y) (c.HAUTEUR_FOND - c.CAMERA_HEIGHT))| ≤ 9 := by
  obtain ⟨bx0, bx1, by0, by1⟩ := updateCamera_bounds c pers_destination cameraRect hW hH
  obtain ⟨N, hN⟩ := cameraApres_settles_aux c pers_destination hW hH hpx hpy _
    (updateCamera c pers_destination cameraRect).1 bx0 bx1 by0 by1 le_rfl
  refine ⟨N + 1, fun n hn => ?_⟩
  obtain ⟨m, rfl⟩ : ∃ m, n = m + 1 := ⟨n - 1, by omega⟩
  obtain ⟨h1, h2, h3⟩ := hN m (by omega)
  have ex : 2 * pers_destination.x = pers_destination.x * 2 := by ring
  have ey : 4 * pers_destination.y = pers_destination.y * 4 := by ring
  simp only [cameraApres]
  rw [ex, ey]
  exact ⟨h1, abs_le.mpr h2, abs_le.mpr h3⟩

/-- Witness of C8 amended: the example configuration, player (4, 2), camera
starting at (0, 0). -/
theorem cameraApres_settles_witness :
    ∃ N, ∀ n, N ≤ n →
      cameraApres exempleConsts ⟨4, 2, 70, 70⟩ n ⟨0, 0, 800, 600⟩
        = cameraApres exempleConsts ⟨4, 2, 70, 70⟩ N ⟨0, 0, 800, 600⟩ ∧
      |(cameraApres exempleConsts ⟨4, 2, 70, 70⟩ N ⟨0, 0, 800, 600⟩).x
        - max 0 (min (2 * 4) (exempleConsts.LARGEUR_FOND - exempleConsts.CAMERA_WIDTH))| ≤ 9 ∧
      |(cameraApres exempleConsts ⟨4, 2, 70, 70⟩ N ⟨0, 0, 800, 600⟩).y
        - max 0 (min (4 * 2) (exempleConsts.HAUTEUR_FOND - exempleConsts.CAMERA_HEIGHT))| ≤ 9 :=
  cameraApres_settles exempleConsts ⟨4, 2, 70, 70⟩ ⟨0, 0, 800, 600⟩
    (by decide) (by decide) (by decide) (by decide)

/-! ## Texture of the draw call -/

/-- C9: `getMousePositionDirection` returns one of HAUT, BAS, DROITE, GAUCHE, so the
texture selection of `actualisationSprite` takes one of its four branches, and the
draw call issued by `action` never carries an unassigned texture. -/
theorem action_texture_assigned (c : Consts) (clavier : Clavier)
    (pers_destination pers_source : SDL_Rect) (frame DIM_SPRITE x y : Int) :
    (getMousePositionDirection c pers_destination x y = c.HAUT ∨
     getMousePositionDirection c pers_destination x y = c.BAS ∨
     getMousePositionDirection c pers_destination x y = c.DROITE ∨
     getMousePositionDirection c pers_destination x y = c.GAUCHE) ∧
    selectTexture c (getMousePositionDirection c pers_destination x y) ≠ none ∧
    ∃ d, action c clavier pers_destination pers_source frame DIM_SPRITE x y = some d ∧
      d.texSprite ≠ none := by
  have hdir : ∀ p : SDL_Rect,
      getMousePositionDirection c p x y = c.HAUT ∨
      getMousePositionDirection c p x y = c.BAS ∨
      getMousePositionDirection c p x y = c.DROITE ∨
      getMousePositionDirection c p x y = c.GAUCHE := by
    intro p
    simp only [getMousePositionDirection]
    split_ifs <;> simp
  have hsel : ∀ p : SDL_Rect, selectTexture c (getMousePositionDirection c p x y) ≠ none := by
    intro p
    rcases hdir p with h | h | h | h <;> rw [h] <;> simp only [selectTexture] <;>
      split_ifs <;> simp
  refine ⟨hdir pers_destination, hsel pers_destination, ?_⟩
  simp only [action, actualisationSprite]
  rw [if_neg (by decide)]
  exact ⟨_, rfl, hsel _⟩

/-- C10: when the map is at least as large as the camera and the sprite inset
`DIM_SPRITE_PLAYER/7` lies in `[0, 100)`, the four tile corners computed by
`updateCamera` have non-negative columns and rows, the two left corners share a
column, the two top corners share a row, and left column `≤` right column, top row
`≤` bottom row. -/
theorem updateCamera_corners_well_formed (c : Consts) (pers_destination cameraRect : SDL_Rect)
    (hW : c.CAMERA_WIDTH ≤ c.LARGEUR_FOND) (hH : c.CAMERA_HEIGHT ≤ c.HAUTEUR_FOND)
    (hinset0 : 0 ≤ Int.tdiv c.DIM_SPRITE_PLAYER 7) (hinset1 : Int.tdiv c.DIM_SPRITE_PLAYER 7 < 100) :
    (0 ≤ (updateCamera c pers_destination cameraRect).2.case_hg.casx ∧
     0 ≤ (updateCamera c pers_destination cameraRect).2.case_hg.casy ∧
     0 ≤ (updateCamera c pers_destination cameraRect).2.case_hd.casx ∧
     0 ≤ (updateCamera c pers_destination cameraRect).2.case_hd.casy ∧
     0 ≤ (updateCamera c pers_destination cameraRect).2.case_bg.casx ∧
     0 ≤ (updateCamera c pers_destination cameraRect).2.case_bg.casy ∧
     0 ≤ (updateCamera c pers_destination cameraRect).2.case_bd.casx ∧
     0 ≤ (updateCamera c pers_destination cameraRect).2.case_bd.casy) ∧
    (updateCamera c pers_destination cameraRect).2.case_hg.casx
      = (updateCamera c pers_destination cameraRect).2.case_bg.casx ∧
    (updateCamera c pers_destination cameraRect).2.case_hg.casy
      = (updateCamera c pers_destination cameraRect).2.case_hd.casy ∧
    (updateCamera c pers_destination cameraRect).2.case_hg.casx
      ≤ (updateCamera c pers_destination cameraRect).2.case_hd.casx ∧
    (updateCamera c pers_destination cameraRect).2.case_bg.casx
      ≤ (updateCamera c pers_destination cameraRect).2.case_bd.casx ∧
    (updateCamera c pers_destination cameraRect).2.case_hg.casy
      ≤ (updateCamera c pers_destination cameraRect).2.case_bg.casy ∧
    (updateCamera c pers_destination cameraRect).2.case_hd.casy
      ≤ (updateCamera c pers_destination cameraRect).2.case_bd.casy := by
  obtain ⟨hx0, -, hy0, -⟩ := updateCamera_bounds c pers_destination cameraRect hW hH
  have hcorners : (updateCamera c pers_destination cameraRect).2
      = coinsCamera c (updateCamera c pers_destination cameraRect).1 := rfl
  rw [hcorners]
  generalize (updateCamera c pers_destination cameraRect).1 = cam at hx0 hy0
  generalize hi : Int.tdiv c.DIM_SPRITE_PLAYER 7 = i at hinset0 hinset1
  have h67 : Int.tdiv 6 7 = 0 := by decide
  simp only [coinsCamera, hi, h67, zero_mul, add_zero]
  have hx1 := tdiv_cases (cam.x - i) 100 (by norm_num)
  have hx2 := tdiv_cases cam.x 100 (by norm_num)
  have hy1 := tdiv_cases (cam.y - i) 120 (by norm_num)
  have hy2 := tdiv_cases cam.y 120 (by norm_num)
  generalize Int.tdiv (cam.x - i) 100 = a1 at hx1 ⊢
  generalize Int.tdiv cam.x 100 = a2 at hx2 ⊢
  generalize Int.tdiv (cam.y - i) 120 = b1 at hy1 ⊢
  generalize Int.tdiv cam.y 120 = b2 at hy2 ⊢
  refine ⟨⟨?_, ?_, ?_, ?_, ?_, ?_, ?_, ?_⟩, ?_, ?_, ?_, ?_, ?_, ?_⟩ <;>
    first | trivial | omega

/-- Witness of C10: the example configuration (inset `70/7 = 10`), player at
(100, 60) and camera at (200, 240); the corners are (1,1), (2,1), (1,2), (2,2). -/
theorem updateCamera_corners_well_formed_witness :
    (updateCamera exempleConsts ⟨100, 60, 70, 70⟩ ⟨200, 240, 800, 600⟩).2
      = ⟨⟨1, 1⟩, ⟨2, 1⟩, ⟨1, 2⟩, ⟨2, 2⟩⟩ ∧
    (updateCamera exempleConsts ⟨100, 60, 70, 70⟩ ⟨200, 240, 800, 600⟩).2.case_hg.casx
      ≤ (updateCamera exempleConsts ⟨100, 60, 70, 70⟩ ⟨200, 240, 800, 600⟩).2.case_hd.casx :=
  ⟨by decide, (updateCamera_corners_well_formed exempleConsts ⟨100, 60, 70, 70⟩
    ⟨200, 240, 800, 600⟩ (by decide) (by decide) (by decide) (by decide)).2.2.2.1⟩

/-! ## One call never moves the camera away -/

theorem clampAxe_step_toward (M t x : Int) (hM : 0 ≤ M) :
    (clampAxe M (x + interpolationStep (t - x)) - max 0 (min t M)).natAbs
      ≤ (x - max 0 (min t M)).natAbs := by
  obtain ⟨h1, h2, -, -, -⟩ := interpolationStep_spec (t - x)
  generalize interpolationStep (t - x) = s at *
  unfold clampAxe
  split_ifs <;> omega

/-- C11: with a map at least as large as the camera (and integers that do not
overflow), one `updateCamera` call never moves the camera away from the clamped
target: on each axis the distance between the camera coordinate and the target
(`2*p.x` or `4*p.y`) clamped to `[0, LARGEUR_FOND - CAMERA_WIDTH]` or
`[0, HAUTEUR_FOND - CAMERA_HEIGHT]` is after the call at most what it was before,
for every player position and every camera position. -/
theorem updateCamera_not_away_from_clamped_target (c : Consts)
    (pers_destination cameraRect : SDL_Rect)
    (hW : c.CAMERA_WIDTH ≤ c.LARGEUR_FOND) (hH : c.CAMERA_HEIGHT ≤ c.HAUTEUR_FOND) :
    |(updateCamera c pers_destination cameraRect).1.x
        - max 0 (min (2 * pers_destination.x) (c.LARGEUR_FOND - c.CAMERA_WIDTH))|
      ≤ |cameraRect.x
        - max 0 (min (2 * pers_destination.x) (c.LARGEUR_FOND - c.CAMERA_WIDTH))| ∧
    |(updateCamera c pers_destination cameraRect).1.y
        - max 0 (min (4 * pers_destination.y) (c.HAUTEUR_FOND - c.CAMERA_HEIGHT))|
      ≤ |cameraRect.y
        - max 0 (min (4 * pers_destination.y) (c.HAUTEUR_FOND - c.CAMERA_HEIGHT))| := by
  have ex : 2 * pers_destination.x = pers_destination.x * 2 := by ring
  have ey : 4 * pers_destination.y = pers_destination.y * 4 := by ring
  have hx := clampAxe_step_toward (c.LARGEUR_FOND - c.CAMERA_WIDTH) (pers_destination.x * 2)
    cameraRect.x (by omega)
  have hy := clampAxe_step_toward (c.HAUTEUR_FOND - c.CAMERA_HEIGHT) (pers_destination.y * 4)
    cameraRect.y (by omega)
  rw [updateCamera_x, updateCamera_y, ex, ey]
  simp only [Int.abs_eq_natAbs]
  exact ⟨by exact_mod_cast hx, by exact_mod_cast hy⟩

/-- Witness of C11: the example configuration with the player at (-25, 1000) and
the camera at (-60, 3000); the clamped target is (0, 2160), the camera goes to
(0, 2160), and the distances 60 and 840 become 0 and 0. -/
theorem updateCamera_not_away_from_clamped_target_witness :
    (updateCamera exempleConsts ⟨-25, 1000, 70, 70⟩ ⟨-60, 3000, 800, 600⟩).1
      = ⟨0, 2160, 800, 600⟩ ∧
    |(updateCamera exempleConsts ⟨-25, 1000, 70, 70⟩ ⟨-60, 3000, 800, 600⟩).1.x
        - max 0 (min (2 * (-25)) (exempleConsts.LARGEUR_FOND - exempleConsts.CAMERA_WIDTH))|
      ≤ |(-60 : Int)
        - max 0 (min (2 * (-25)) (exempleConsts.LARGEUR_FOND - exempleConsts.CAMERA_WIDTH))| ∧
    |(updateCamera exempleConsts ⟨-25, 1000, 70, 70⟩ ⟨-60, 3000, 800, 600⟩).1.y
        - max 0 (min (4 * 1000) (exempleConsts.HAUTEUR_FOND - exempleConsts.CAMERA_HEIGHT))|
      ≤ |(3000 : Int)
        - max 0 (min (4 * 1000) (exempleConsts.HAUTEUR_FOND - exempleConsts.CAMERA_HEIGHT))| :=
  ⟨by decide, updateCamera_not_away_from_clamped_target exempleConsts ⟨-25, 1000, 70, 70⟩
    ⟨-60, 3000, 800, 600⟩ (by decide) (by decide)⟩

end WizardBattle
